import Mathlib

/-!
# Verification of the car-scan OBD-II codec core

Shallow embedding of the C sources under src/obd/src (hex_utils.c, elm327.c,
pid.c, dtc.c, sensor.c, vin.c).  C strings are modelled as List Char (a C
string never contains NUL), machine bytes as Nat (uint8_t values, < 256).
The C shifts and masks on bytes and nibbles are written with / and % by the
matching power of two; each definition carries the original C expression in
a comment.  Fallible functions return Except ObdResult, or a pair of a
result code and the contents of the caller-provided output buffer.
-/

deriving instance DecidableEq for Except

namespace CarScan

/-- obd_result_t from obd_types.h: the result code of every operation. -/
inductive ObdResult where
  | ok
  | invalidArg
  | bufferTooSmall
  | invalidHex
  | noData
  | elmError
  | parseFailed
  | unknownPid
deriving DecidableEq, Repr

/-- obd_elm_response_type_t from obd_types.h: classification of one line. -/
inductive ElmResponseType where
  | data
  | okResp
  | noData
  | error
  | prompt
  | unknown
deriving DecidableEq, Repr

/-- hex_char_to_nibble from hex_utils.c: 0-15 for a hex digit, -1 otherwise.
The C comparisons are on ASCII codes: 48-57 = 0-9, 65-70 = A-F, 97-102 = a-f. -/
def hex_char_to_nibble (c : Char) : Int :=
  if 48 ≤ c.toNat ∧ c.toNat ≤ 57 then (c.toNat : Int) - 48
  else if 65 ≤ c.toNat ∧ c.toNat ≤ 70 then (c.toNat : Int) - 65 + 10
  else if 97 ≤ c.toNat ∧ c.toNat ≤ 102 then (c.toNat : Int) - 97 + 10
  else -1

/-- is_whitespace from hex_utils.c. -/
def is_whitespace (c : Char) : Bool :=
  c = ' ' || c = '\t' || c = '\r' || c = '\n'

/-- The loop of obd_hex_to_bytes from hex_utils.c.  `o` counts the bytes
already stored into the output buffer of capacity `out_size`; the returned
list holds the bytes written from position `o` on.  The single-character
case is the C appearance order: the high-nibble validity check, then the
end-of-string (trailing lone nibble) check, both OBD_ERROR_INVALID_HEX.
A byte is (high << 4) | low = high * 16 + low for nibbles high, low ≤ 15. -/
def hexToBytesAux : List Char → Nat → Nat → Except ObdResult (List Nat)
  | [], _, _ => .ok []
  | [c], out_size, o =>
    if is_whitespace c then hexToBytesAux [] out_size o
    else if hex_char_to_nibble c < 0 then .error .invalidHex
    else .error .invalidHex
  | c :: c2 :: rest2, out_size, o =>
    if is_whitespace c then hexToBytesAux (c2 :: rest2) out_size o
    else if hex_char_to_nibble c < 0 then .error .invalidHex
    else if hex_char_to_nibble c2 < 0 then .error .invalidHex
    else if out_size ≤ o then .error .bufferTooSmall
    else
      match hexToBytesAux rest2 out_size (o + 1) with
      | .error e => .error e
      | .ok tail =>
        .ok (((hex_char_to_nibble c).toNat * 16 +
              (hex_char_to_nibble c2).toNat) :: tail)

/-- obd_hex_to_bytes from hex_utils.c (the NULL-argument check is not
representable: a List Char argument always exists). -/
def obd_hex_to_bytes (hex : List Char) (out_size : Nat) :
    Except ObdResult (List Nat) :=
  hexToBytesAux hex out_size 0

/-- Index into the lookup table "0123456789ABCDEF" of obd_bytes_to_hex
(every call site has index < 16). -/
def hexDigit (n : Nat) : Char :=
  (['0', '1', '2', '3', '4', '5', '6', '7',
    '8', '9', 'A', 'B', 'C', 'D', 'E', 'F']).getD n '0'

/-- The character output of obd_bytes_to_hex from hex_utils.c: uppercase hex
pairs separated by single spaces, no trailing separator.  The high digit is
(b >> 4) & 0x0F = b / 16 % 16, the low digit b & 0x0F = b % 16. -/
def bytesToHexChars : List Nat → List Char
  | [] => []
  | [b] => [hexDigit (b / 16 % 16), hexDigit (b % 16)]
  | b :: rest =>
    hexDigit (b / 16 % 16) :: hexDigit (b % 16) :: ' ' :: bytesToHexChars rest

/-- obd_bytes_to_hex from hex_utils.c: len = 0 succeeds regardless of
capacity; otherwise the capacity check is out_size < len * 3. -/
def obd_bytes_to_hex (bytes : List Nat) (out_size : Nat) :
    Except ObdResult (List Char) :=
  if bytes.length = 0 then .ok []
  else if out_size < bytes.length * 3 then .error .bufferTooSmall
  else .ok (bytesToHexChars bytes)

/-- Capacity-free hex decoding: the byte sequence obd_hex_to_bytes produces
when the output buffer is large enough (`none` on malformed hex).  Used to
state capacity-independent facts; related to the source embedding by
`hexToBytesAux_pure_ok` and `hexToBytesAux_pure_overflow`. -/
def pureHexDecode : List Char → Option (List Nat)
  | [] => some []
  | [c] => if is_whitespace c then some [] else none
  | c :: c2 :: rest2 =>
    if is_whitespace c then pureHexDecode (c2 :: rest2)
    else if hex_char_to_nibble c < 0 then none
    else if hex_char_to_nibble c2 < 0 then none
    else
      (pureHexDecode rest2).map
        (((hex_char_to_nibble c).toNat * 16 +
          (hex_char_to_nibble c2).toNat) :: ·)

theorem hexToBytesAux_pure_ok :
    ∀ (n : Nat) (cs : List Char), cs.length ≤ n →
      ∀ (out_size o : Nat) (bs : List Nat),
        pureHexDecode cs = some bs → o + bs.length ≤ out_size →
        hexToBytesAux cs out_size o = .ok bs := by
  intro n
  induction n with
  | zero =>
    intro cs hlen out_size o bs hdec hcap
    have hnil : cs = [] := List.length_eq_zero.mp (Nat.le_zero.mp hlen)
    subst hnil
    simp only [pureHexDecode, Option.some.injEq] at hdec
    subst hdec
    rfl
  | succ n ih =>
    intro cs hlen out_size o bs hdec hcap
    match cs with
    | [] =>
      simp only [pureHexDecode, Option.some.injEq] at hdec
      subst hdec
      rfl
    | [c] =>
      rw [pureHexDecode] at hdec
      by_cases hws : is_whitespace c = true
      · rw [if_pos hws] at hdec
        rw [hexToBytesAux, if_pos hws]
        simp only [Option.some.injEq] at hdec
        subst hdec
        rfl
      · rw [if_neg hws] at hdec
        exact absurd hdec (by simp)
    | c :: c2 :: rest2 =>
      rw [pureHexDecode] at hdec
      rw [hexToBytesAux]
      by_cases hws : is_whitespace c = true
      · rw [if_pos hws] at hdec ⊢
        exact ih (c2 :: rest2) (by simp only [List.length_cons] at hlen ⊢; omega)
          out_size o bs hdec hcap
      · rw [if_neg hws] at hdec ⊢
        by_cases hc : hex_char_to_nibble c < 0
        · rw [if_pos hc] at hdec
          exact absurd hdec (by simp)
        · rw [if_neg hc] at hdec ⊢
          by_cases hc2 : hex_char_to_nibble c2 < 0
          · rw [if_pos hc2] at hdec
            exact absurd hdec (by simp)
          · rw [if_neg hc2] at hdec ⊢
            match htail : pureHexDecode rest2 with
            | none =>
              rw [htail] at hdec
              exact absurd hdec (by simp)
            | some tail =>
              rw [htail] at hdec
              simp only [Option.map_some', Option.some.injEq] at hdec
              subst hdec
              rw [if_neg (by simp only [List.length_cons] at hcap; omega)]
              have hrec : hexToBytesAux rest2 out_size (o + 1) = .ok tail := by
                apply ih rest2 _ out_size (o + 1) tail htail
                · simp only [List.length_cons] at hcap
                  omega
                · simp only [List.length_cons] at hlen
                  omega
              rw [hrec]

theorem hexToBytesAux_pure_overflow :
    ∀ (n : Nat) (cs : List Char), cs.length ≤ n →
      ∀ (out_size o : Nat) (bs : List Nat),
        pureHexDecode cs = some bs → o ≤ out_size → out_size < o + bs.length →
        hexToBytesAux cs out_size o = .error .bufferTooSmall := by
  intro n
  induction n with
  | zero =>
    intro cs hlen out_size o bs hdec ho hcap
    have hnil : cs = [] := List.length_eq_zero.mp (Nat.le_zero.mp hlen)
    subst hnil
    simp only [pureHexDecode, Option.some.injEq] at hdec
    subst hdec
    simp only [List.length_nil] at hcap
    omega
  | succ n ih =>
    intro cs hlen out_size o bs hdec ho hcap
    match cs with
    | [] =>
      simp only [pureHexDecode, Option.some.injEq] at hdec
      subst hdec
      simp only [List.length_nil] at hcap
      omega
    | [c] =>
      rw [pureHexDecode] at hdec
      by_cases hws : is_whitespace c = true
      · rw [if_pos hws] at hdec
        simp only [Option.some.injEq] at hdec
        subst hdec
        simp only [List.length_nil] at hcap
        omega
      · rw [if_neg hws] at hdec
        exact absurd hdec (by simp)
    | c :: c2 :: rest2 =>
      rw [pureHexDecode] at hdec
      rw [hexToBytesAux]
      by_cases hws : is_whitespace c = true
      · rw [if_pos hws] at hdec ⊢
        exact ih (c2 :: rest2) (by simp only [List.length_cons] at hlen ⊢; omega)
          out_size o bs hdec ho hcap
      · rw [if_neg hws] at hdec ⊢
        by_cases hc : hex_char_to_nibble c < 0
        · rw [if_pos hc] at hdec
          exact absurd hdec (by simp)
        · rw [if_neg hc] at hdec ⊢
          by_cases hc2 : hex_char_to_nibble c2 < 0
          · rw [if_pos hc2] at hdec
            exact absurd hdec (by simp)
          · rw [if_neg hc2] at hdec ⊢
            match htail : pureHexDecode rest2 with
            | none =>
              rw [htail] at hdec
              exact absurd hdec (by simp)
            | some tail =>
              rw [htail] at hdec
              simp only [Option.map_some', Option.some.injEq] at hdec
              subst hdec
              by_cases hfull : out_size ≤ o
              · rw [if_pos hfull]
              · rw [if_neg hfull]
                have hrec : hexToBytesAux rest2 out_size (o + 1) =
                    .error .bufferTooSmall := by
                  apply ih rest2 _ out_size (o + 1) tail htail
                  · omega
                  · simp only [List.length_cons] at hcap
                    omega
                  · simp only [List.length_cons] at hlen
                    omega
                rw [hrec]

theorem nibble_of_hexDigit :
    ∀ d < 16, hex_char_to_nibble (hexDigit d) = (d : Int) := by
  decide

theorem whitespace_of_hexDigit :
    ∀ d < 16, is_whitespace (hexDigit d) = false := by
  decide

theorem pureHexDecode_pair (d1 d2 : Nat) (h1 : d1 < 16) (h2 : d2 < 16)
    (rest : List Char) :
    pureHexDecode (hexDigit d1 :: hexDigit d2 :: rest) =
      (pureHexDecode rest).map ((d1 * 16 + d2) :: ·) := by
  have e1 := nibble_of_hexDigit d1 h1
  have e2 := nibble_of_hexDigit d2 h2
  have w1 := whitespace_of_hexDigit d1 h1
  rw [pureHexDecode]
  rw [if_neg (by simp [w1])]
  rw [if_neg (by rw [e1]; omega)]
  rw [if_neg (by rw [e2]; omega)]
  rw [e1, e2]
  simp

theorem pureHexDecode_bytesToHexChars (B : List Nat) (hb : ∀ b ∈ B, b < 256) :
    pureHexDecode (bytesToHexChars B) = some B := by
  induction B with
  | nil => rfl
  | cons b rest ih =>
    have hb0 : b < 256 := hb b (by simp)
    have hhi : b / 16 % 16 < 16 := by omega
    have hlo : b % 16 < 16 := by omega
    have hbyte : (b / 16 % 16) * 16 + b % 16 = b := by omega
    cases rest with
    | nil =>
      rw [show bytesToHexChars [b] =
            [hexDigit (b / 16 % 16), hexDigit (b % 16)] from rfl]
      rw [pureHexDecode_pair _ _ hhi hlo []]
      simp [pureHexDecode, hbyte]
    | cons b2 rest2 =>
      have ih' := ih (fun x hx => hb x (List.mem_cons_of_mem _ hx))
      rw [show bytesToHexChars (b :: b2 :: rest2) =
            hexDigit (b / 16 % 16) :: hexDigit (b % 16) :: ' ' ::
              bytesToHexChars (b2 :: rest2) from rfl]
      rw [pureHexDecode_pair _ _ hhi hlo]
      obtain ⟨y, ys, hy⟩ : ∃ y ys, bytesToHexChars (b2 :: rest2) = y :: ys := by
        cases rest2 <;> exact ⟨_, _, rfl⟩
      rw [hy]
      rw [show pureHexDecode (' ' :: y :: ys) = pureHexDecode (y :: ys) from by
        rw [pureHexDecode]; rw [if_pos (by rfl)]]
      rw [← hy, ih']
      simp [hbyte]

/-- C4.  For every byte sequence within the caller capacities, encoding then
decoding returns exactly the original bytes with result OBD_OK. -/
theorem c4_hex_roundtrip (B : List Nat) (esz dsz : Nat)
    (hb : ∀ b ∈ B, b < 256) (he : B.length * 3 ≤ esz) (hd : B.length ≤ dsz) :
    obd_bytes_to_hex B esz = .ok (bytesToHexChars B) ∧
    obd_hex_to_bytes (bytesToHexChars B) dsz = .ok B := by
  constructor
  · rw [obd_bytes_to_hex]
    by_cases hz : B.length = 0
    · rw [if_pos hz]
      have hnil : B = [] := List.length_eq_zero.mp hz
      subst hnil
      rfl
    · rw [if_neg hz, if_neg (by omega)]
  · exact hexToBytesAux_pure_ok (bytesToHexChars B).length _ le_rfl dsz 0 B
      (pureHexDecode_bytesToHexChars B hb) (by omega)

/-- C4 witness: the roundtrip on the RPM response bytes 41 0C 1A F8. -/
theorem c4_hex_roundtrip_witness :
    obd_bytes_to_hex [0x41, 0x0C, 0x1A, 0xF8] 12 =
      .ok (bytesToHexChars [0x41, 0x0C, 0x1A, 0xF8]) ∧
    obd_hex_to_bytes (bytesToHexChars [0x41, 0x0C, 0x1A, 0xF8]) 4 =
      .ok [0x41, 0x0C, 0x1A, 0xF8] :=
  c4_hex_roundtrip [0x41, 0x0C, 0x1A, 0xF8] 12 4 (by decide) (by decide) (by decide)

/-! ## PID response parsing (pid.c) -/

/-- obd_pid_response_t from obd_types.h (data_len is data.length). -/
structure PidResponse where
  mode : Nat
  pid : Nat
  data : List Nat
deriving DecidableEq, Repr

/-- obd_pid_parse_response from pid.c.  The decode buffer is
uint8_t bytes[2 + OBD_MAX_DATA_BYTES], i.e. capacity 9; data_len is
byte_count - 2 then capped at OBD_MAX_DATA_BYTES = 7 (take 7). -/
def obd_pid_parse_response (response : List Char) :
    Except ObdResult PidResponse :=
  match obd_hex_to_bytes response (2 + 7) with
  | .error e => .error e
  | .ok (b0 :: b1 :: rest) => .ok { mode := b0, pid := b1, data := rest.take 7 }
  | .ok _ => .error .parseFailed

/-- C1 counterexample.  The well-formed hex payload below decodes to 10
bytes (≥ 2), yet obd_pid_parse_response fails with OBD_ERROR_BUFFER_TOO_SMALL
instead of succeeding with the data capped at 7 bytes: the internal decode
buffer holds only 2 + 7 bytes, so the cap in pid.c is never the limiting
path and over-long payloads are reported as an error. -/
theorem c1_counterexample :
    pureHexDecode (("41 0C 11 22 33 44 55 66 77 88").toList) =
      some [0x41, 0x0C, 0x11, 0x22, 0x33, 0x44, 0x55, 0x66, 0x77, 0x88] ∧
    obd_pid_parse_response (("41 0C 11 22 33 44 55 66 77 88").toList) =
      .error .bufferTooSmall := by
  constructor
  · decide
  · decide

/-- C1 amended.  For a well-formed hex payload decoding to n bytes: when
2 ≤ n ≤ 9 the parse succeeds with mode = byte 0, pid = byte 1 and data =
the remaining n - 2 ≤ 7 bytes (the 7-byte cap never drops anything); when
n > 9 the parse fails with BufferTooSmall rather than silently dropping
the excess. -/
theorem c1_pid_parse (hex : List Char) (b0 b1 : Nat) (rest : List Nat)
    (hdec : pureHexDecode hex = some (b0 :: b1 :: rest)) :
    (rest.length ≤ 7 →
      obd_pid_parse_response hex = .ok ⟨b0, b1, rest⟩ ∧ rest.length ≤ 7) ∧
    (7 < rest.length →
      obd_pid_parse_response hex = .error .bufferTooSmall) := by
  constructor
  · intro hle
    have hok : obd_hex_to_bytes hex (2 + 7) = .ok (b0 :: b1 :: rest) :=
      hexToBytesAux_pure_ok hex.length hex le_rfl (2 + 7) 0 _ hdec
        (by simp only [List.length_cons]; omega)
    refine ⟨?_, hle⟩
    rw [obd_pid_parse_response, hok]
    dsimp only
    rw [List.take_of_length_le hle]
  · intro hgt
    have hof : obd_hex_to_bytes hex (2 + 7) = .error .bufferTooSmall :=
      hexToBytesAux_pure_overflow hex.length hex le_rfl (2 + 7) 0 _ hdec
        (by omega) (by simp only [List.length_cons]; omega)
    rw [obd_pid_parse_response, hof]

/-- C1 amended witness: both branches at concrete inputs — the RPM response
parses with 2 data bytes, and a 10-byte payload hits BufferTooSmall. -/
theorem c1_pid_parse_witness :
    obd_pid_parse_response (("41 0C 1A F8").toList) =
      .ok ⟨0x41, 0x0C, [0x1A, 0xF8]⟩ ∧
    obd_pid_parse_response (("41 0C 11 22 33 44 55 66 77 88").toList) =
      .error .bufferTooSmall :=
  ⟨((c1_pid_parse (("41 0C 1A F8").toList) 0x41 0x0C [0x1A, 0xF8]
      (by decide)).1 (by decide)).1,
   (c1_pid_parse (("41 0C 11 22 33 44 55 66 77 88").toList) 0x41 0x0C
      [0x11, 0x22, 0x33, 0x44, 0x55, 0x66, 0x77, 0x88]
      (by decide)).2 (by decide)⟩

/-! ## DTC decoding (dtc.c) -/

/-- obd_dtc_category_t from obd_types.h. -/
inductive DtcCategory where
  | powertrain
  | chassis
  | body
  | network
deriving DecidableEq, Repr

/-- The C cast (obd_dtc_category_t)cat_bits, cat_bits ∈ 0..3. -/
def categoryOfBits : Nat → DtcCategory
  | 0 => .powertrain
  | 1 => .chassis
  | 2 => .body
  | _ => .network

/-- dtc_category_chars "PCBU" from dtc.c, indexed by the top 2 bits. -/
def catChar (n : Nat) : Char :=
  (['P', 'C', 'B', 'U']).getD n 'P'

/-- obd_dtc_t from obd_types.h; formatted is the 5 characters before the
NUL terminator. -/
structure ObdDtc where
  category : DtcCategory
  code : Nat
  formatted : List Char
deriving DecidableEq, Repr

/-- parse_single_dtc from dtc.c.
cat_bits = (byte1 >> 6) & 0x03 = byte1 / 64 % 4;
d2 = (byte1 >> 4) & 0x03 = byte1 / 16 % 4; d3 = byte1 & 0x0F = byte1 % 16;
d4 = (byte2 >> 4) & 0x0F = byte2 / 16 % 16; d5 = byte2 & 0x0F = byte2 % 16;
code = (d2 << 12) | (d3 << 8) | (d4 << 4) | d5, disjoint bit fields, so the
ORs are sums; formatted byte 1 is the C char arithmetic '0' + d2 = 48 + d2. -/
def parse_single_dtc (byte1 byte2 : Nat) : ObdDtc :=
  { category := categoryOfBits (byte1 / 64 % 4),
    code := (byte1 / 16 % 4) * 4096 + (byte1 % 16) * 256 +
            (byte2 / 16 % 16) * 16 + byte2 % 16,
    formatted := [catChar (byte1 / 64 % 4), Char.ofNat (48 + byte1 / 16 % 4),
                  hexDigit (byte1 % 16), hexDigit (byte2 / 16 % 16),
                  hexDigit (byte2 % 16)] }

/-- The pair-consuming loop of obd_dtc_parse_response from dtc.c: pairs are
consumed while two bytes remain and count < OBD_MAX_DTCS = 32; a 0x00 0x00
pair is skipped without counting; an odd trailing byte is unconsumed. -/
def dtcPairs : List Nat → Nat → List ObdDtc
  | b1 :: b2 :: rest, count =>
    if count < 32 then
      if b1 = 0 ∧ b2 = 0 then dtcPairs rest count
      else parse_single_dtc b1 b2 :: dtcPairs rest (count + 1)
    else []
  | _, _ => []

/-- obd_dtc_parse_response from dtc.c: decode buffer uint8_t bytes[64];
require ≥ 1 byte and header byte 0x43, else OBD_ERROR_PARSE_FAILED. -/
def obd_dtc_parse_response (response : List Char) :
    Except ObdResult (List ObdDtc) :=
  match obd_hex_to_bytes response 64 with
  | .error e => .error e
  | .ok [] => .error .parseFailed
  | .ok (b0 :: rest) =>
    if b0 = 0x43 then .ok (dtcPairs rest 0) else .error .parseFailed

/-- C2 counterexample.  For the byte pair (0x01, 0x03) the source formats
"P0103": the second character is '0', taken from bits 5-4 of byte1, while
the claim's digit2 = low 2 bits of byte1 = 0x01 & 0x03 = 1 would format
"P1103" (second character 48 + 1 = '1'). -/
theorem c2_counterexample :
    (parse_single_dtc 0x01 0x03).formatted = ['P', '0', '1', '0', '3'] ∧
    0x01 % 4 = 1 ∧
    (parse_single_dtc 0x01 0x03).formatted ≠
      ['P', Char.ofNat (48 + 0x01 % 4), '1', '0', '3'] := by
  refine ⟨by decide, by decide, by decide⟩

/-- C2 amended.  For every byte pair, the category is the top 2 bits of
byte1 (0 Powertrain, 1 Chassis, 2 Body, 3 Network), the code is the
remaining 14 bits of the big-endian 16-bit value (so digit2 is bits 5-4 of
byte1, the low 2 bits of its high nibble, not the low 2 bits of byte1),
and the formatted string is category letter, decimal digit2, then hex
digits d3 d4 d5. -/
theorem c2_dtc_decode (b1 b2 : Nat) (h1 : b1 < 256) (h2 : b2 < 256) :
    (parse_single_dtc b1 b2).category = categoryOfBits (b1 / 64) ∧
    (parse_single_dtc b1 b2).code = (b1 * 256 + b2) % 16384 ∧
    (parse_single_dtc b1 b2).formatted =
      [catChar (b1 / 64), Char.ofNat (48 + b1 / 16 % 4),
       hexDigit (b1 % 16), hexDigit (b2 / 16), hexDigit (b2 % 16)] := by
  have e1 : b1 / 64 % 4 = b1 / 64 := by omega
  have e2 : b2 / 16 % 16 = b2 / 16 := by omega
  refine ⟨?_, ?_, ?_⟩
  · rw [parse_single_dtc]
    dsimp only
    rw [e1]
  · rw [parse_single_dtc]
    dsimp only
    omega
  · rw [parse_single_dtc]
    dsimp only
    rw [e1, e2]

/-- C2 amended witness at the pair (0xC1, 0x23): category Network and the
formatted string "U0123". -/
theorem c2_dtc_decode_witness :
    (parse_single_dtc 0xC1 0x23).category = categoryOfBits (0xC1 / 64) ∧
    (parse_single_dtc 0xC1 0x23).code = (0xC1 * 256 + 0x23) % 16384 ∧
    (parse_single_dtc 0xC1 0x23).formatted =
      [catChar (0xC1 / 64), Char.ofNat (48 + 0xC1 / 16 % 4),
       hexDigit (0xC1 % 16), hexDigit (0x23 / 16), hexDigit (0x23 % 16)] :=
  c2_dtc_decode 0xC1 0x23 (by decide) (by decide)

/-- C7.  obd_dtc_parse_response rejects any first byte other than 0x43 with
ParseFailed; "43 01 03 01 04 00 00" yields exactly P0103 then P0104 (the
padding pair contributing nothing); "43 C1 23 00 00 00 00" yields exactly
one Network entry "U0123". -/
theorem c7_dtc_parse :
    (∀ (hex : List Char) (b0 : Nat) (rest : List Nat),
        obd_hex_to_bytes hex 64 = .ok (b0 :: rest) → b0 ≠ 0x43 →
        obd_dtc_parse_response hex = .error .parseFailed) ∧
    obd_dtc_parse_response (("43 01 03 01 04 00 00").toList) =
      .ok [⟨.powertrain, 0x0103, ("P0103").toList⟩,
           ⟨.powertrain, 0x0104, ("P0104").toList⟩] ∧
    obd_dtc_parse_response (("43 C1 23 00 00 00 00").toList) =
      .ok [⟨.network, 0x0123, ("U0123").toList⟩] := by
  refine ⟨?_, by decide, by decide⟩
  intro hex b0 rest hok hne
  rw [obd_dtc_parse_response, hok]
  dsimp only
  rw [if_neg hne]

/-- C7 witness: a response whose first byte is 0x44 is rejected with
ParseFailed. -/
theorem c7_dtc_parse_witness :
    obd_dtc_parse_response (("44 01 03").toList) = .error .parseFailed :=
  c7_dtc_parse.1 (("44 01 03").toList) 0x44 [0x01, 0x03] (by decide) (by decide)

/-! ## Adapter response classification (elm327.c) -/

/-- The token "OK" of elm327.c. -/
def tokOK : List Char := ("OK").toList

/-- The token "NO DATA" of elm327.c. -/
def tokNoData : List Char := ("NO DATA").toList

/-- The token "ERROR" of elm327.c. -/
def tokErrorStr : List Char := ("ERROR").toList

/-- The token "UNABLE TO CONNECT" of elm327.c. -/
def tokUnable : List Char := ("UNABLE TO CONNECT").toList

/-- The token "BUS INIT" of elm327.c. -/
def tokBusInit : List Char := ("BUS INIT").toList

/-- The token "CAN ERROR" of elm327.c. -/
def tokCanError : List Char := ("CAN ERROR").toList

/-- The token "STOPPED" of elm327.c. -/
def tokStopped : List Char := ("STOPPED").toList

/-- The token "ELM" of elm327.c. -/
def tokElm : List Char := ("ELM").toList

/-- strncmp(p, tok, strlen(tok)) == 0: tok is a prefix of p (when p is
shorter than tok, strncmp compares tok against p's NUL and is nonzero). -/
def startsWithTok : List Char → List Char → Bool
  | [], _ => true
  | _ :: _, [] => false
  | t :: ts, c :: cs => t == c && startsWithTok ts cs

/-- obd_elm327_classify_response from elm327.c.  The leading skip set
' ', '\t', '\r', '\n' coincides with is_whitespace; the checks appear in
the C order: prompt, "OK", "NO DATA", '?', the error tokens, "ELM", then
the hex-digit fallback hex_char_to_nibble(*p) >= 0. -/
def obd_elm327_classify_response (response : List Char) : ElmResponseType :=
  match response.dropWhile is_whitespace with
  | [] => .unknown
  | c :: rest =>
    if c = '>' then .prompt
    else if startsWithTok tokOK (c :: rest) then .okResp
    else if startsWithTok tokNoData (c :: rest) then .noData
    else if c = '?' then .error
    else if startsWithTok tokErrorStr (c :: rest) ||
            startsWithTok tokUnable (c :: rest) ||
            startsWithTok tokBusInit (c :: rest) ||
            startsWithTok tokCanError (c :: rest) ||
            startsWithTok tokStopped (c :: rest) then .error
    else if startsWithTok tokElm (c :: rest) then .okResp
    else if 0 ≤ hex_char_to_nibble c then .data
    else .unknown

/-- Modelled from the spec wording of C5: "the first character is a valid
hex digit" (0-9, A-F, a-f by ASCII code). -/
def isHexDigitChar (c : Char) : Bool :=
  decide (48 ≤ c.toNat ∧ c.toNat ≤ 57) ||
  decide (65 ≤ c.toNat ∧ c.toNat ≤ 70) ||
  decide (97 ≤ c.toNat ∧ c.toNat ≤ 102)

/-- Modelled from the spec wording of C5 (refinement reference): trim, then
Unknown / Prompt / Ok("OK" or "ELM") / NoData / Error('?' or the error
tokens) / Data on a leading hex digit / Unknown, in the claim's order. -/
def classifySpec (line : List Char) : ElmResponseType :=
  match line.dropWhile is_whitespace with
  | [] => .unknown
  | c :: rest =>
    if c = '>' then .prompt
    else if startsWithTok tokOK (c :: rest) || startsWithTok tokElm (c :: rest)
      then .okResp
    else if startsWithTok tokNoData (c :: rest) then .noData
    else if (c == '?') ||
            (startsWithTok tokErrorStr (c :: rest) ||
             startsWithTok tokUnable (c :: rest) ||
             startsWithTok tokBusInit (c :: rest) ||
             startsWithTok tokCanError (c :: rest) ||
             startsWithTok tokStopped (c :: rest)) then .error
    else if isHexDigitChar c then .data
    else .unknown

theorem startsWithTok_iff (tok p : List Char) :
    startsWithTok tok p = true ↔ ∃ t, p = tok ++ t := by
  induction tok generalizing p with
  | nil =>
    simp only [startsWithTok, List.nil_append]
    exact ⟨fun _ => ⟨p, rfl⟩, fun _ => trivial⟩
  | cons x xs ih =>
    cases p with
    | nil =>
      simp only [startsWithTok]
      constructor
      · intro h
        exact absurd h (by simp)
      · rintro ⟨t, ht⟩
        exact absurd ht (by simp)
    | cons c cs =>
      simp only [startsWithTok, Bool.and_eq_true, beq_iff_eq, ih,
        List.cons_append]
      constructor
      · rintro ⟨rfl, t, rfl⟩
        exact ⟨t, rfl⟩
      · rintro ⟨t, ht⟩
        injection ht with h1 h2
        exact ⟨h1.symm, t, h2⟩

theorem hex_nibble_nonneg_iff (c : Char) :
    0 ≤ hex_char_to_nibble c ↔ isHexDigitChar c = true := by
  rw [hex_char_to_nibble, isHexDigitChar]
  split_ifs with h1 h2 h3 <;>
    simp only [Bool.or_eq_true, decide_eq_true_eq] <;> omega

/-- C5.  obd_elm327_classify_response agrees with the claim's case order
on every line (the "ELM" banner check commutes with the intervening token
checks because no token shares a viable prefix with "ELM"), and on the
claim's concrete examples: classify(" OK") = classify("OK") = Ok and
"ELM327 v1.5" is Ok, not Data. -/
theorem c5_classify :
    (∀ line, obd_elm327_classify_response line = classifySpec line) ∧
    obd_elm327_classify_response ((" OK").toList) = .okResp ∧
    obd_elm327_classify_response (("OK").toList) = .okResp ∧
    obd_elm327_classify_response (("ELM327 v1.5").toList) = .okResp := by
  refine ⟨?_, by decide, by decide, by decide⟩
  intro line
  rw [obd_elm327_classify_response, classifySpec]
  cases hp : line.dropWhile is_whitespace with
  | nil => rfl
  | cons c rest =>
    dsimp only
    cases helm : startsWithTok tokElm (c :: rest) with
    | true =>
      obtain ⟨t, ht⟩ := (startsWithTok_iff _ _).mp helm
      rw [show tokElm ++ t = 'E' :: 'L' :: 'M' :: t from rfl] at ht
      injection ht with h1 h2
      subst h1
      subst h2
      rfl
    | false =>
      by_cases h1 : c = '>'
      · rw [if_pos h1, if_pos h1]
      · rw [if_neg h1, if_neg h1]
        cases hok : startsWithTok tokOK (c :: rest) with
        | true => simp [hok, helm]
        | false =>
          cases hnd : startsWithTok tokNoData (c :: rest) with
          | true => simp [hok, helm, hnd]
          | false =>
            by_cases h4 : c = '?'
            · have hq : (c == '?') = true := by simp [h4]
              simp [hok, helm, hnd, hq, if_pos h4]
            · have hq : (c == '?') = false := by simp [h4]
              cases htoks : (startsWithTok tokErrorStr (c :: rest) ||
                  startsWithTok tokUnable (c :: rest) ||
                  startsWithTok tokBusInit (c :: rest) ||
                  startsWithTok tokCanError (c :: rest) ||
                  startsWithTok tokStopped (c :: rest)) with
              | true => simp [hok, helm, hnd, hq, htoks, h4]
              | false =>
                simp [hok, helm, hnd, hq, htoks, h4, hex_nibble_nonneg_iff]

/-- C5 witness: the agreement instantiated at the line " OK". -/
theorem c5_classify_witness :
    obd_elm327_classify_response ((" OK").toList) =
      classifySpec ((" OK").toList) :=
  c5_classify.1 ((" OK").toList)

/-! ## Response cleaning (elm327.c) -/

/-- Processing of one complete line inside the loop of
obd_elm327_clean_response from elm327.c: trim leading spaces/tabs; skip
empty lines; classify the trimmed line (the 255-character line_buf
truncation cannot change the result, since classification inspects at most
the first 17 characters); for a Data line read the first byte from the
first two characters, first_byte = (hi << 4) | lo = hi * 16 + lo, skip the
line when a nibble is invalid or first_byte < 0x40 (an echo); otherwise
write the '\r' separator (only when it fits: out_pos < out_size - 1,
silently dropped otherwise), then append the line or fail with
BufferTooSmall when out_pos + line_len >= out_size. -/
def processLine (line : List Char) (out_size : Nat) (acc : List Char)
    (found : Bool) : Except ObdResult (List Char × Bool) :=
  match line.dropWhile (fun c => c = ' ' || c = '\t') with
  | [] => .ok (acc, found)
  | c1 :: lrest =>
    if obd_elm327_classify_response (c1 :: lrest) = .data then
      let hi := hex_char_to_nibble c1
      let lo := match lrest with
        | [] => -1
        | c2 :: _ => hex_char_to_nibble c2
      if hi < 0 ∨ lo < 0 then .ok (acc, found)
      else if hi * 16 + lo < 64 then .ok (acc, found)
      else
        let acc1 := if found = true ∧ acc.length < out_size - 1
                    then acc ++ ['\r'] else acc
        if out_size ≤ acc1.length + (c1 :: lrest).length then
          .error .bufferTooSmall
        else .ok (acc1 ++ c1 :: lrest, true)
    else .ok (acc, found)

/-- The line loop of obd_elm327_clean_response from elm327.c, processed one
character at a time: CR/LF terminates and processes the accumulated line
('continue' on an empty line matches processLine's no-op on []); '>'
terminates the current line, processes it, and stops (the C inner scan
ends the line at '>', after which the outer loop breaks at the prompt);
end of input processes the final line. -/
def cleanStep : List Char → Nat → List Char → List Char → Bool →
    Except ObdResult (List Char × Bool)
  | [], out_size, cur, acc, found => processLine cur out_size acc found
  | c :: rest, out_size, cur, acc, found =>
    if c = '\r' ∨ c = '\n' then
      match processLine cur out_size acc found with
      | .error e => .error e
      | .ok (acc2, found2) => cleanStep rest out_size [] acc2 found2
    else if c = '>' then processLine cur out_size acc found
    else cleanStep rest out_size (cur ++ [c]) acc found

/-- The trailing space/tab trim at the end of obd_elm327_clean_response. -/
def trimTrailing (l : List Char) : List Char :=
  (l.reverse.dropWhile (fun c => c = ' ' || c = '\t')).reverse

/-- strstr(hay, needle) != NULL: needle occurs somewhere in hay (the C call
sites always pass a nonempty needle). -/
def containsTok : List Char → List Char → Bool
  | [], needle => needle.isEmpty
  | c :: rest, needle => startsWithTok needle (c :: rest) || containsTok rest needle

/-- obd_elm327_clean_response from elm327.c.  Returns the result code and
the cleaned payload written into the caller's buffer.  On the error paths
the C code writes an empty string (or, for InvalidArg/BufferTooSmall,
leaves the buffer unspecified — spec §7 makes error-path output undefined;
the model returns [] there and no claim consumes it). -/
def obd_elm327_clean_response (raw : List Char) (out_size : Nat) :
    ObdResult × List Char :=
  if out_size = 0 then (.invalidArg, [])
  else
    match cleanStep raw out_size [] [] false with
    | .error e => (e, [])
    | .ok (acc, found) =>
      if found then (.ok, trimTrailing acc)
      else if containsTok raw tokNoData then (.noData, [])
      else if containsTok raw (['?']) || containsTok raw tokErrorStr then
        (.elmError, [])
      else (.parseFailed, [])

/-- C3 counterexample.  "80 11 22" is classified Data and its first byte
0x80 has the 0x40 bit clear (0x80 / 64 % 2 = 0), yet
obd_elm327_clean_response keeps it as the payload instead of discarding it
as an echo: the code's echo test is first_byte < 0x40, not the absence of
the 0x40 bit. -/
theorem c3_counterexample :
    obd_elm327_classify_response (("80 11 22").toList) = .data ∧
    0x80 / 64 % 2 = 0 ∧
    obd_elm327_clean_response (("010C\r80 11 22\r\r>").toList) 256 =
      (.ok, ("80 11 22").toList) := by
  refine ⟨by decide, by decide, by decide⟩

/-- C3 amended.  During cleaning, a line classified Data whose decoded
first byte is < 0x40 (the outbound-opcode range 0x01/0x02/0x03/0x09 lies
in it) is discarded as an echo and contributes nothing, and a Data line
whose first byte is ≥ 0x40 is kept: appended to the payload (after a '\r'
separator when a previous line produced output and it fits), or reported
as BufferTooSmall when it does not fit. -/
theorem c3_echo_filter (line : List Char) (out_size : Nat) (acc : List Char)
    (found : Bool) (c1 c2 : Char) (lrest : List Char)
    (hlp : line.dropWhile (fun c => c = ' ' || c = '\t') = c1 :: c2 :: lrest)
    (hdata : obd_elm327_classify_response (c1 :: c2 :: lrest) = .data)
    (hhi : 0 ≤ hex_char_to_nibble c1) (hlo : 0 ≤ hex_char_to_nibble c2) :
    (hex_char_to_nibble c1 * 16 + hex_char_to_nibble c2 < 64 →
       processLine line out_size acc found = .ok (acc, found)) ∧
    (64 ≤ hex_char_to_nibble c1 * 16 + hex_char_to_nibble c2 →
       ∀ acc1, acc1 = (if found = true ∧ acc.length < out_size - 1
                       then acc ++ ['\r'] else acc) →
         (out_size ≤ acc1.length + (c1 :: c2 :: lrest).length →
            processLine line out_size acc found = .error .bufferTooSmall) ∧
         (acc1.length + (c1 :: c2 :: lrest).length < out_size →
            processLine line out_size acc found =
              .ok (acc1 ++ c1 :: c2 :: lrest, true))) := by
  rw [processLine, hlp]
  dsimp only
  rw [if_pos hdata]
  rw [if_neg (by omega)]
  constructor
  · intro hecho
    rw [if_pos hecho]
  · intro hkeep hacc1 hdef
    rw [if_neg (by omega)]
    subst hdef
    constructor
    · intro hover
      rw [if_pos hover]
    · intro hfit
      rw [if_neg (by omega)]

/-- C3 amended witness: the echoed request "010C" (first byte 0x01 < 0x40)
contributes nothing, while the response line "41 0C 1A F8" (first byte
0x41 ≥ 0x40) is kept as the payload. -/
theorem c3_echo_filter_witness :
    processLine (("010C").toList) 256 [] false = .ok ([], false) ∧
    processLine (("41 0C 1A F8").toList) 256 [] false =
      .ok (("41 0C 1A F8").toList, true) := by
  constructor
  · exact (c3_echo_filter (("010C").toList) 256 [] false '0' '1'
      (("0C").toList) (by decide) (by decide) (by decide) (by decide)).1
      (by decide)
  · exact ((c3_echo_filter (("41 0C 1A F8").toList) 256 [] false '4' '1'
      ((" 0C 1A F8").toList) (by decide) (by decide) (by decide)
      (by decide)).2 (by decide) [] (by decide)).2 (by decide)

/-- C9.  Whenever no Data line survives cleaning (the line loop ends with
found_data = 0), obd_elm327_clean_response writes an empty payload and
returns NoData when the raw text contains "NO DATA", otherwise ElmError
when it contains "?" or "ERROR", otherwise ParseFailed — the "NO DATA"
check takes precedence. -/
theorem c9_no_data_errors (raw : List Char) (out_size : Nat) (acc : List Char)
    (hsz : 0 < out_size)
    (hstep : cleanStep raw out_size [] [] false = .ok (acc, false)) :
    obd_elm327_clean_response raw out_size =
      (if containsTok raw tokNoData = true then (.noData, ([] : List Char))
       else if (containsTok raw (['?']) || containsTok raw tokErrorStr) = true
       then (.elmError, [])
       else (.parseFailed, [])) := by
  rw [obd_elm327_clean_response, if_neg (by omega), hstep]
  dsimp only
  rw [if_neg (by simp)]

/-- C9 witness: a transcript whose only content line is "NO DATA" cleans to
error NoData with an empty payload. -/
theorem c9_no_data_errors_witness :
    obd_elm327_clean_response (("0100\rNO DATA\r\r>").toList) 256 =
      (.noData, []) := by
  rw [c9_no_data_errors (("0100\rNO DATA\r\r>").toList) 256 [] (by omega)
    (by decide)]
  decide

/-! ## Sensor decode table and evaluator (sensor.c) -/

/-- The formula function pointers of sensor.c as a tagged variant. -/
inductive SensorFormula where
  | percent
  | tempOffset40
  | rpm
  | direct
  | timingAdvance
  | maf
  | fuelPressure
  | o2Voltage
  | runtimeSeconds
  | dtcCountMasked
  | fuelTrim
deriving DecidableEq, Repr

/-- The formula bodies of sensor.c over the raw data bytes A = data[0],
B = data[1] (reads are guarded by the byte_count check in
obd_sensor_decode; getD gives totality).  The C float arithmetic is
modelled over ℚ; A & 0x7F = A % 128. -/
def evalFormula (f : SensorFormula) (data : List Nat) : ℚ :=
  let a : Nat := data.getD 0 0
  let b : Nat := data.getD 1 0
  match f with
  | .percent => (a : ℚ) * 100 / 255
  | .tempOffset40 => (a : ℚ) - 40
  | .rpm => ((a : ℚ) * 256 + (b : ℚ)) / 4
  | .direct => (a : ℚ)
  | .timingAdvance => (a : ℚ) / 2 - 64
  | .maf => ((a : ℚ) * 256 + (b : ℚ)) / 100
  | .fuelPressure => (a : ℚ) * 3
  | .o2Voltage => (a : ℚ) / 200
  | .runtimeSeconds => (a : ℚ) * 256 + (b : ℚ)
  | .dtcCountMasked => ((a % 128 : Nat) : ℚ)
  | .fuelTrim => ((a : ℚ) - 128) * 100 / 128

/-- sensor_entry_t from sensor.c. -/
structure SensorEntry where
  pid : Nat
  name : List Char
  unit : List Char
  byte_count : Nat
  formula : SensorFormula
deriving DecidableEq, Repr

/-- The static sensor_table of sensor.c, reproduced row for row. -/
def sensor_table : List SensorEntry :=
  [⟨0x01, ("DTC Count").toList, ("").toList, 4, .dtcCountMasked⟩,
   ⟨0x04, ("Engine Load").toList, ("%").toList, 1, .percent⟩,
   ⟨0x05, ("Coolant Temperature").toList, ("C").toList, 1, .tempOffset40⟩,
   ⟨0x06, ("Short Term Fuel Trim B1").toList, ("%").toList, 1, .fuelTrim⟩,
   ⟨0x07, ("Long Term Fuel Trim B1").toList, ("%").toList, 1, .fuelTrim⟩,
   ⟨0x0A, ("Fuel Pressure").toList, ("kPa").toList, 1, .fuelPressure⟩,
   ⟨0x0B, ("Intake Manifold Pressure").toList, ("kPa").toList, 1, .direct⟩,
   ⟨0x0C, ("Engine RPM").toList, ("rpm").toList, 2, .rpm⟩,
   ⟨0x0D, ("Vehicle Speed").toList, ("km/h").toList, 1, .direct⟩,
   ⟨0x0E, ("Timing Advance").toList, ("deg").toList, 1, .timingAdvance⟩,
   ⟨0x0F, ("Intake Air Temperature").toList, ("C").toList, 1, .tempOffset40⟩,
   ⟨0x10, ("MAF Air Flow Rate").toList, ("g/s").toList, 2, .maf⟩,
   ⟨0x11, ("Throttle Position").toList, ("%").toList, 1, .percent⟩,
   ⟨0x14, ("O2 Sensor 1 Voltage").toList, ("V").toList, 1, .o2Voltage⟩,
   ⟨0x1F, ("Run Time Since Start").toList, ("sec").toList, 2, .runtimeSeconds⟩]

/-- find_sensor_entry from sensor.c: linear search, first match. -/
def find_sensor_entry (pid : Nat) : Option SensorEntry :=
  sensor_table.find? (fun e => e.pid == pid)

/-- obd_sensor_value_t from obd_types.h; name and unit hold the characters
before the NUL terminator of the char[32] / char[8] buffers. -/
structure SensorValue where
  pid : Nat
  value : ℚ
  name : List Char
  unit : List Char
deriving DecidableEq, Repr

/-- obd_sensor_decode from sensor.c: table lookup, byte-count validation,
formula evaluation, then strncpy of name into char[32] and unit into
char[8] (truncate-and-terminate: at most 31 and 7 characters). -/
def obd_sensor_decode (response : PidResponse) :
    Except ObdResult SensorValue :=
  match find_sensor_entry response.pid with
  | none => .error .unknownPid
  | some entry =>
    if response.data.length < entry.byte_count then .error .parseFailed
    else
      .ok { pid := response.pid,
            value := evalFormula entry.formula response.data,
            name := entry.name.take 31,
            unit := entry.unit.take 7 }

/-- obd_sensor_get_name from sensor.c: lookup only, strncpy of at most
name_size - 1 characters. -/
def obd_sensor_get_name (pid : Nat) (name_size : Nat) :
    Except ObdResult (List Char) :=
  if name_size = 0 then .error .invalidArg
  else
    match find_sensor_entry pid with
    | none => .error .unknownPid
    | some entry => .ok (entry.name.take (name_size - 1))

/-- C8.  For a pid absent from the static table both obd_sensor_decode and
obd_sensor_get_name return UnknownPid (the error carries no fabricated
value or name), and for a pid present in the table obd_sensor_decode
returns ParseFailed when data_len is below the entry's minimum byte
count. -/
theorem c8_sensor_errors :
    (∀ (response : PidResponse),
        (∀ e ∈ sensor_table, e.pid ≠ response.pid) →
        obd_sensor_decode response = .error .unknownPid) ∧
    (∀ (pid name_size : Nat), 0 < name_size →
        (∀ e ∈ sensor_table, e.pid ≠ pid) →
        obd_sensor_get_name pid name_size = .error .unknownPid) ∧
    (∀ (response : PidResponse) (entry : SensorEntry),
        find_sensor_entry response.pid = some entry →
        response.data.length < entry.byte_count →
        obd_sensor_decode response = .error .parseFailed) := by
  refine ⟨?_, ?_, ?_⟩
  · intro response h
    have hfind : find_sensor_entry response.pid = none := by
      rw [find_sensor_entry, List.find?_eq_none]
      intro e he
      simp only [beq_iff_eq]
      exact h e he
    rw [obd_sensor_decode, hfind]
  · intro pid name_size hsz h
    have hfind : find_sensor_entry pid = none := by
      rw [find_sensor_entry, List.find?_eq_none]
      intro e he
      simp only [beq_iff_eq]
      exact h e he
    rw [obd_sensor_get_name, if_neg (by omega), hfind]
  · intro response entry hfind hlt
    rw [obd_sensor_decode, hfind]
    dsimp only
    rw [if_pos hlt]

/-- C8 witness: pid 0x02 is absent from the table, so decode and getName
both report UnknownPid; pid 0x0C (Engine RPM) needs 2 data bytes, so one
byte yields ParseFailed. -/
theorem c8_sensor_errors_witness :
    obd_sensor_decode ⟨0x41, 0x02, [0x00]⟩ = .error .unknownPid ∧
    obd_sensor_get_name 0x02 32 = .error .unknownPid ∧
    obd_sensor_decode ⟨0x41, 0x0C, [0x1A]⟩ = .error .parseFailed :=
  ⟨c8_sensor_errors.1 ⟨0x41, 0x02, [0x00]⟩ (by decide),
   c8_sensor_errors.2.1 0x02 32 (by decide) (by decide),
   c8_sensor_errors.2.2 ⟨0x41, 0x0C, [0x1A]⟩
     ⟨0x0C, ("Engine RPM").toList, ("rpm").toList, 2, .rpm⟩
     (by decide) (by decide)⟩

/-! ## VIN reassembly (vin.c) -/

/-- The data-byte append loop of obd_vin_parse_response from vin.c: each
byte is appended as a character unless it is 0x00 (skipped) or the VIN
already holds OBD_VIN_LENGTH = 17 characters (the C loop guard
vin_pos < OBD_VIN_LENGTH, equivalently a per-byte guard since nothing else
changes state). -/
def vinAppend (data : List Nat) (vin : List Nat) : List Nat :=
  data.foldl (fun v b => if b = 0 ∨ 17 ≤ v.length then v else v ++ [b]) vin

/-- Processing of one line inside obd_vin_parse_response from vin.c: copy
at most 255 characters into line_hex, hex-decode into uint8_t
line_bytes[16] (any decode error skips the line), skip the line unless it
has ≥ 4 bytes starting 0x49 0x02 (the C test is
count < 4 || bytes[0] != 0x49 || bytes[1] != 0x02), skip the sequence-
number byte at index 2, and append the data bytes from index 3 on. -/
def vinLine (line : List Char) (vin : List Nat) : List Nat :=
  match obd_hex_to_bytes (line.take 255) 16 with
  | .error _ => vin
  | .ok bs =>
    if bs.length < 4 then vin
    else
      match bs with
      | b0 :: b1 :: _seq :: data =>
        if b0 = 0x49 ∧ b1 = 0x02 then vinAppend data vin else vin
      | _ => vin

/-- The line loop of obd_vin_parse_response from vin.c, one character at a
time: CR/LF terminates and processes the accumulated line (empty lines are
no-ops in vinLine, matching the C separator skip); end of input processes
the final line.  The C outer guard vin_pos < 17 only skips lines that
could not change the state anyway (vinAppend adds nothing at 17). -/
def vinLines : List Char → List Char → List Nat → List Nat
  | [], cur, vin => vinLine cur vin
  | c :: rest, cur, vin =>
    if c = '\r' ∨ c = '\n' then vinLines rest [] (vinLine cur vin)
    else vinLines rest (cur ++ [c]) vin

/-- obd_vin_parse_response from vin.c: result code plus the characters
written into the caller's vin buffer (as byte values).  vin_size = 0 is
InvalidArg, vin_size < OBD_VIN_LENGTH + 1 = 18 is BufferTooSmall and the
parse succeeds only when exactly 17 characters accumulated. -/
def obd_vin_parse_response (response : List Char) (vin_size : Nat) :
    ObdResult × List Nat :=
  if vin_size = 0 then (.invalidArg, [])
  else if vin_size < 17 + 1 then (.bufferTooSmall, [])
  else
    let v := vinLines response [] []
    if v.length = 17 then (.ok, v) else (.parseFailed, v)

theorem vinLine_qualifying (line : List Char) (vin : List Nat) (s : Nat)
    (data : List Nat)
    (h : obd_hex_to_bytes (line.take 255) 16 = .ok (0x49 :: 0x02 :: s :: data)) :
    vinLine line vin = vinAppend data vin := by
  rw [vinLine, h]
  dsimp only
  cases data with
  | nil =>
    rw [if_pos (by simp)]
    rfl
  | cons d rest =>
    rw [if_neg (by simp)]
    rw [if_pos ⟨rfl, rfl⟩]

theorem vinLine_skip (line : List Char) (vin : List Nat) (bs : List Nat)
    (h : obd_hex_to_bytes (line.take 255) 16 = .ok bs)
    (hbad : bs.length < 4 ∨ bs.take 2 ≠ [0x49, 0x02]) :
    vinLine line vin = vin := by
  rw [vinLine, h]
  dsimp only
  by_cases hl : bs.length < 4
  · rw [if_pos hl]
  · rw [if_neg hl]
    rcases hbad with hbad | hbad
    · exact absurd hbad hl
    · rcases bs with _ | ⟨b0, _ | ⟨b1, _ | ⟨s, data⟩⟩⟩
      · exact absurd (by simp) hl
      · exact absurd (by simp) hl
      · exact absurd (by simp) hl
      · dsimp only
        rw [if_neg (by
          rintro ⟨rfl, rfl⟩
          exact hbad rfl)]

theorem vinAppend_length_le (data : List Nat) :
    ∀ vin : List Nat, vin.length ≤ 17 → (vinAppend data vin).length ≤ 17 := by
  induction data with
  | nil =>
    intro vin h
    simpa [vinAppend] using h
  | cons b rest ih =>
    intro vin h
    rw [vinAppend, List.foldl_cons]
    show (vinAppend rest _).length ≤ 17
    apply ih
    split_ifs with hb
    · exact h
    · rw [List.length_append]
      simp only [List.length_singleton]
      omega

theorem vinAppend_drop_zero (pre post vin : List Nat) :
    vinAppend (pre ++ 0 :: post) vin = vinAppend (pre ++ post) vin := by
  rw [vinAppend, vinAppend, List.foldl_append, List.foldl_append,
    List.foldl_cons]
  rw [if_pos (Or.inl rfl)]

set_option maxRecDepth 8000 in
/-- C6.  obd_vin_parse_response splits on CR/LF and hex-decodes each line;
a line contributes only when it decodes to ≥ 4 bytes starting 0x49 0x02
(the sequence byte at index 2 is skipped and never validated: the
contribution is the same for every s); accumulation never exceeds 17
characters; with an adequate buffer the call returns Ok exactly when 17
characters accumulated and ParseFailed otherwise; the canonical 5-line
transcript yields "WBA3B5FK7FN123456" and a single incomplete frame yields
ParseFailed. -/
theorem c6_vin_parse :
    (∀ (response : List Char) (vin_size : Nat), 18 ≤ vin_size →
        obd_vin_parse_response response vin_size =
          (if (vinLines response [] []).length = 17
           then (.ok, vinLines response [] [])
           else (.parseFailed, vinLines response [] []))) ∧
    (∀ (line : List Char) (vin : List Nat) (s : Nat) (data : List Nat),
        obd_hex_to_bytes (line.take 255) 16 =
          .ok (0x49 :: 0x02 :: s :: data) →
        vinLine line vin = vinAppend data vin) ∧
    (∀ (line : List Char) (vin : List Nat) (bs : List Nat),
        obd_hex_to_bytes (line.take 255) 16 = .ok bs →
        bs.length < 4 ∨ bs.take 2 ≠ [0x49, 0x02] →
        vinLine line vin = vin) ∧
    (∀ (data vin : List Nat), vin.length ≤ 17 →
        (vinAppend data vin).length ≤ 17) ∧
    obd_vin_parse_response
      (("49 02 01 57 42 41 33\r49 02 02 42 35 46 4B\r49 02 03 37 46 4E 31\r49 02 04 32 33 34 35\r49 02 05 36 00 00 00").toList) 18 =
      (.ok, ("WBA3B5FK7FN123456").toList.map (fun c => c.toNat)) ∧
    obd_vin_parse_response (("49 02 01 57 42 41 33").toList) 18 =
      (.parseFailed, [0x57, 0x42, 0x41, 0x33]) := by
  refine ⟨?_, ?_, ?_, ?_, by decide, by decide⟩
  · intro response vin_size hsz
    rw [obd_vin_parse_response, if_neg (by omega), if_neg (by omega)]
  · exact vinLine_qualifying
  · exact vinLine_skip
  · exact fun data vin h => vinAppend_length_le data vin h

/-- C6 witness: a qualifying frame with sequence byte 0x07 contributes its
data bytes, and the incomplete single frame fails. -/
theorem c6_vin_parse_witness :
    vinLine (("49 02 07 41 42 43 44").toList) [] =
      vinAppend [0x41, 0x42, 0x43, 0x44] [] ∧
    obd_vin_parse_response (("49 02 01 57 42 41 33").toList) 18 =
      (.parseFailed, [0x57, 0x42, 0x41, 0x33]) :=
  ⟨c6_vin_parse.2.1 (("49 02 07 41 42 43 44").toList) [] 0x07
      [0x41, 0x42, 0x43, 0x44] (by decide),
   c6_vin_parse.2.2.2.2.2⟩

/-- C10.  obd_vin_parse_response drops every 0x00 byte wherever it occurs
in a qualifying frame's data region, not only as trailing padding: an
interior zero is never stored and all later characters shift one position
earlier. -/
theorem c10_vin_interior_null :
    (∀ (pre post vin : List Nat),
        vinAppend (pre ++ 0 :: post) vin = vinAppend (pre ++ post) vin) ∧
    (∀ (line : List Char) (vin : List Nat) (s : Nat) (pre post : List Nat),
        obd_hex_to_bytes (line.take 255) 16 =
          .ok (0x49 :: 0x02 :: s :: (pre ++ 0 :: post)) →
        vinLine line vin = vinAppend (pre ++ post) vin) ∧
    vinLine (("49 02 01 41 00 42 43").toList) [] = [0x41, 0x42, 0x43] := by
  refine ⟨?_, ?_, by decide⟩
  · exact vinAppend_drop_zero
  · intro line vin s pre post h
    rw [vinLine_qualifying line vin s (pre ++ 0 :: post) h]
    exact vinAppend_drop_zero pre post vin

/-- C10 witness: the frame "49 02 01 41 00 42 43" has an interior null in
its data region; the decoded characters are 0x41 then 0x42 0x43 shifted
one position earlier. -/
theorem c10_vin_interior_null_witness :
    vinLine (("49 02 01 41 00 42 43").toList) [] =
      vinAppend ([0x41] ++ [0x42, 0x43]) [] :=
  c10_vin_interior_null.2.1 (("49 02 01 41 00 42 43").toList) [] 0x01
    [0x41] [0x42, 0x43] (by decide)

end CarScan
